import Mathlib

/-!
Verification of the dotfiles reconciliation engine.

The model is a shallow embedding of the TypeScript sources:
`src/lib/sync.ts` (status resolution and mutation engine),
`src/lib/github.ts` (git layer and the global/local orchestrators).
Filesystem paths are modelled as lists of path segments; the three
configured roots (`HOME`, `DOTFILES_DIR`, `BACKUP_DIR`) are the concrete
directories from `src/lib/config.ts`.  Symbolic links store either an
absolute target or a relative one; `existsSync` follows link chains with
fuel bounded by the store size, so a broken or cyclic chain yields
`false` exactly as Node's `existsSync` reports `false` on any error.
All functions model fault-free executions of the filesystem primitives.
-/

/-- A filesystem path as stored in a symlink: the raw `readlink` text,
either absolute or relative (mirrors the string comparison in the code). -/
inductive PathT where
  | abs (segs : List String)
  | rel (segs : List String)
deriving DecidableEq, Repr

/-- A filesystem node: a regular file with content, or a symbolic link. -/
inductive Node where
  | file (content : String)
  | symlink (target : PathT)
deriving DecidableEq, Repr

/-- The filesystem store: absolute paths (segment lists) to nodes. -/
abbrev FS := List (List String × Node)

def FS.lookup : FS → List String → Option Node
  | [], _ => none
  | e :: rest, p => if e.1 = p then some e.2 else FS.lookup rest p

def FS.erase : FS → List String → FS
  | [], _ => []
  | e :: rest, p => if e.1 = p then FS.erase rest p else e :: FS.erase rest p

def FS.set (fs : FS) (p : List String) (n : Node) : FS :=
  (p, n) :: FS.erase fs p

/-- Directory containing a path (used to resolve relative link targets). -/
def parentDir (p : List String) : List String := p.dropLast

/-- Resolve one symlink target against the directory of the link itself,
as the OS does for relative targets. -/
def resolveTarget (linkPath : List String) : PathT → List String
  | PathT.abs s => s
  | PathT.rel s => parentDir linkPath ++ s

/-- Follow a symlink chain with fuel; ends at a regular file or fails. -/
def resolveChain (fs : FS) : Nat → List String → Option (List String)
  | 0, _ => none
  | fuel + 1, p =>
    match FS.lookup fs p with
    | some (Node.file _) => some p
    | some (Node.symlink t) => resolveChain fs fuel (resolveTarget p t)
    | none => none

/-- Node `existsSync`: follows symlinks, `false` on broken links, cycles,
or absent paths (any resolution error reports `false`). -/
def existsSync (fs : FS) (p : List String) : Bool :=
  (resolveChain fs (fs.length + 1) p).isSome

/-- Read a file's content following symlinks (`readFileSync` / `Bun.file`). -/
def readFileContent (fs : FS) (p : List String) : Option String :=
  match resolveChain fs (fs.length + 1) p with
  | some q =>
    match FS.lookup fs q with
    | some (Node.file c) => some c
    | _ => none
  | none => none

/-- The user's home directory (`HOME` in `src/lib/config.ts`). -/
def HOME : List String := ["home", "user"]

/-- The repository clone (`DOTFILES_DIR = join(homedir(), ".dotfiles")`). -/
def DOTFILES_DIR : List String := HOME ++ [".dotfiles"]

/-- The backup root (`BACKUP_DIR = join(homedir(), ".dotfiles-backup")`). -/
def BACKUP_DIR : List String := HOME ++ [".dotfiles-backup"]

/-- `join(DOTFILES_DIR, relativePath)`. -/
def repoPath (relativePath : String) : List String := DOTFILES_DIR ++ [relativePath]

/-- `join(HOME, relativePath)`. -/
def homePath (relativePath : String) : List String := HOME ++ [relativePath]

/-- `join(BACKUP_DIR, relativePath)`. -/
def backupPath (relativePath : String) : List String := BACKUP_DIR ++ [relativePath]

/-- The three-valued status of `src/lib/sync.ts`. -/
inductive FileStatus where
  | synced
  | unlinked
  | diverged
deriving DecidableEq, Repr

/-- `getFileStatus` from `src/lib/sync.ts` lines 20-37: unlinked when the
target does not exist (following links); synced when the target is a
symlink whose raw link text equals the absolute repo path; diverged
otherwise.  No repo-side check and no content comparison. -/
def getFileStatus (fs : FS) (relativePath : String) : FileStatus :=
  if existsSync fs (homePath relativePath) then
    match FS.lookup fs (homePath relativePath) with
    | some (Node.symlink t) =>
      if t = PathT.abs (repoPath relativePath) then FileStatus.synced
      else FileStatus.diverged
    | _ => FileStatus.diverged
  else FileStatus.unlinked

/-- `filesMatch` from `src/lib/sync.ts` lines 39-51: content equality of
repo and home copies, `false` if either read fails. -/
def filesMatch (fs : FS) (relativePath : String) : Bool :=
  match readFileContent fs (repoPath relativePath),
        readFileContent fs (homePath relativePath) with
  | some a, some b => a == b
  | _, _ => false

/-- The backup condition of `linkFile` (`src/lib/sync.ts` lines 91-101):
the target exists and is not already a symlink whose raw link text equals
the repo path. -/
def shouldBackup (fs : FS) (relativePath : String) : Bool :=
  existsSync fs (homePath relativePath) &&
    (match FS.lookup fs (homePath relativePath) with
     | some (Node.symlink t) => !(decide (t = PathT.abs (repoPath relativePath)))
     | some (Node.file _) => true
     | none => false)

/-- The backup phase of `linkFile`: copy the target's (link-following)
content to `join(BACKUP_DIR, relativePath)` when `shouldBackup` holds. -/
def backupStage (fs : FS) (relativePath : String) : FS :=
  if shouldBackup fs relativePath then
    match readFileContent fs (homePath relativePath) with
    | some c => FS.set fs (backupPath relativePath) (Node.file c)
    | none => fs
  else fs

/-- `linkFile` from `src/lib/sync.ts` lines 86-111 as a state transformer:
backup stage, then `unlinkSync(homePath)` (absence tolerated), then
`symlinkSync(repoPath, homePath)`. -/
def linkFile (fs : FS) (relativePath : String) : FS :=
  FS.set (FS.erase (backupStage fs relativePath) (homePath relativePath))
    (homePath relativePath)
    (Node.symlink (PathT.abs (repoPath relativePath)))

/-- One mutating filesystem operation performed by `linkFile`. -/
inductive FsOp where
  | mkdirs (dir : List String)
  | backupWrite (dst : List String) (content : String)
  | unlink (p : List String)
  | symlink (target : List String) (linkPath : List String)
deriving DecidableEq, Repr

/-- The sequence of filesystem operations `linkFile` performs, in source
order: (conditional) backup-directory creation and backup write, then
home parent creation, `unlinkSync`, `symlinkSync`. -/
def linkFileTrace (fs : FS) (relativePath : String) : List FsOp :=
  (if shouldBackup fs relativePath then
     match readFileContent fs (homePath relativePath) with
     | some c =>
       [FsOp.mkdirs (parentDir (backupPath relativePath)),
        FsOp.backupWrite (backupPath relativePath) c]
     | none => [FsOp.mkdirs (parentDir (backupPath relativePath))]
   else []) ++
  [FsOp.mkdirs (parentDir (homePath relativePath)),
   FsOp.unlink (homePath relativePath),
   FsOp.symlink (repoPath relativePath) (homePath relativePath)]

/-- Effect of one `FsOp` on the store (directory creation is implicit). -/
def FS.applyOp (fs : FS) : FsOp → FS
  | FsOp.mkdirs _ => fs
  | FsOp.backupWrite dst c => FS.set fs dst (Node.file c)
  | FsOp.unlink p => FS.erase fs p
  | FsOp.symlink target linkPath => FS.set fs linkPath (Node.symlink (PathT.abs target))

/-- The five-valued status of the orchestrator variant (`github.ts`
flow); the source's "local" and "remote" string values are rendered as
`localChange` / `remoteChange` because `local` is a Lean keyword. -/
inductive GFileStatus where
  | synced
  | localChange
  | remoteChange
  | conflict
  | unlinked
deriving DecidableEq, Repr

/-- A tracked file of the orchestrator variant. -/
structure GFileInfo where
  path : String
  category : String
  status : GFileStatus
deriving DecidableEq, Repr

/-- The status-update loop body of `runGlobalMode` (lines 198-206) and
`runLocalMode` (lines 386-394): both VCS sets present yields conflict,
remote-only yields remote, local-only yields local, otherwise keep the
filesystem-computed status. -/
def applyVcsSignals (remoteChanges localChanges : List String) (f : GFileInfo) : GFileInfo :=
  if f.path ∈ remoteChanges ∧ f.path ∈ localChanges then
    { f with status := GFileStatus.conflict }
  else if f.path ∈ remoteChanges then
    { f with status := GFileStatus.remoteChange }
  else if f.path ∈ localChanges then
    { f with status := GFileStatus.localChange }
  else f

/-- The whole status-update loop over the tracked file list. -/
def reconcileStatuses (remoteChanges localChanges : List String)
    (files : List GFileInfo) : List GFileInfo :=
  files.map (applyVcsSignals remoteChanges localChanges)

/-- One orchestrator-level operation of the execute phase. -/
inductive SyncOp where
  | gitPull
  | link (path : String)
  | copyToRepo (path : String)
  | gitPush (message : String)
deriving DecidableEq, Repr

/-- Commit message built in `runGlobalMode` line 341. -/
def pushMessage (n : Nat) : String := "update " ++ toString n ++ " files"

/-- The execute phase of `runGlobalMode` (lines 327-351): pull bucket
(git pull then link each pulled path), then push bucket (copy each path
to the repo then one batched commit+push), then link bucket; each bucket
runs only when non-empty. -/
def executeGlobal (toPull toPush toLink : List String) : List SyncOp :=
  (if toPull.isEmpty then [] else SyncOp.gitPull :: toPull.map SyncOp.link) ++
  ((if toPush.isEmpty then []
    else toPush.map SyncOp.copyToRepo ++ [SyncOp.gitPush (pushMessage toPush.length)]) ++
   (if toLink.isEmpty then [] else toLink.map SyncOp.link))

/-- Membership of an operation in the pull bucket. -/
def isPullBucketOp (toPull : List String) : SyncOp → Bool
  | SyncOp.gitPull => true
  | SyncOp.link p => decide (p ∈ toPull)
  | _ => false

/-- Membership of an operation in the push or link bucket (a `link` of a
path also in the pull bucket is attributed to the pull bucket). -/
def isLaterBucketOp (toPush toLink toPull : List String) : SyncOp → Bool
  | SyncOp.copyToRepo p => decide (p ∈ toPush)
  | SyncOp.gitPush _ => true
  | SyncOp.link p => decide (p ∈ toLink) && !(decide (p ∈ toPull))
  | SyncOp.gitPull => false

/-- Membership of an operation in the push bucket alone. -/
def isPushBucketOp (toPush : List String) : SyncOp → Bool
  | SyncOp.copyToRepo p => decide (p ∈ toPush)
  | SyncOp.gitPush _ => true
  | _ => false

/-- Membership of an operation in the link bucket alone (a `link` of a
path also in the pull bucket is attributed to the pull bucket). -/
def isLinkBucketOp (toLink toPull : List String) : SyncOp → Bool
  | SyncOp.link p => decide (p ∈ toLink) && !(decide (p ∈ toPull))
  | _ => false

/-- Result of one git invocation (`GitResult` in `src/lib/github.ts`). -/
structure GitResult where
  ok : Bool
  error : Option String
deriving DecidableEq, Repr

/-- A git command issued by `pushRepo`. -/
inductive GitCmd where
  | add
  | commit (msg : String)
  | push
deriving DecidableEq, Repr

def isPrefixChars : List Char → List Char → Bool
  | [], _ => true
  | _ :: _, [] => false
  | a :: as, b :: bs => a == b && isPrefixChars as bs

def hasInfixChars : List Char → List Char → Bool
  | pat, [] => isPrefixChars pat []
  | pat, b :: bs => isPrefixChars pat (b :: bs) || hasInfixChars pat bs

/-- JavaScript `String.prototype.includes`. -/
def containsSub (s pat : String) : Bool := hasInfixChars pat.toList s.toList

/-- The `result.error?.includes(pat)` test of `pushRepo`. -/
def errorIncludes (r : GitResult) (pat : String) : Bool :=
  match r.error with
  | some e => containsSub e pat
  | none => false

/-- `pushRepo` from `src/lib/github.ts` lines 58-70, parameterized by the
outcomes of the underlying git commands; returns the `GitResult` and the
list of git commands actually issued. -/
def pushRepo (msg : String) (addRes commitRes pushRes : GitResult) :
    GitResult × List GitCmd :=
  if addRes.ok = false then (addRes, [GitCmd.add])
  else if commitRes.ok = false ∧ errorIncludes commitRes "nothing to commit" = true then
    ({ ok := true, error := none }, [GitCmd.add, GitCmd.commit msg])
  else if commitRes.ok = false then (commitRes, [GitCmd.add, GitCmd.commit msg])
  else (pushRes, [GitCmd.add, GitCmd.commit msg, GitCmd.push])

/-- Example store: repo and home copies with identical content "A", home
copy a regular file (not a symlink). -/
def exC3 : FS := [(repoPath "x", Node.file "A"), (homePath "x", Node.file "A")]

/-- Example store: repo copy absent, a regular file at the home path. -/
def exC4 : FS := [(homePath "x", Node.file "B")]

/-- Example store: home path is a relative symlink that resolves to the
repo copy. -/
def exC5 : FS :=
  [(repoPath "x", Node.file "A"),
   (homePath "x", Node.symlink (PathT.rel [".dotfiles", "x"]))]

/-- Example store: home path is a correct absolute symlink to the repo. -/
def exC5W : FS :=
  [(repoPath "x", Node.file "A"),
   (homePath "x", Node.symlink (PathT.abs (repoPath "x")))]

/-- Example store: a divergent regular file at the home path. -/
def exC2 : FS := [(homePath "x", Node.file "B"), (repoPath "x", Node.file "A")]

/-- Example store: home path is a broken symlink (referent absent). -/
def exC9 : FS :=
  [(repoPath "x", Node.file "A"),
   (homePath "x", Node.symlink (PathT.abs ["nowhere"]))]

/-- Example store: a divergent regular file "B1" at the home path. -/
def exC10 : FS := [(homePath "x", Node.file "B1"), (repoPath "x", Node.file "A")]

/-- Example tracked-file list for the reconciliation loop. -/
def exC1files : List GFileInfo := [⟨"a", "Shell", GFileStatus.synced⟩]

/-- Unfolding equation for `resolveChain` at positive fuel. -/
theorem resolveChain_succ (fs : FS) (n : Nat) (p : List String) :
    resolveChain fs (n + 1) p =
      match FS.lookup fs p with
      | some (Node.file _) => some p
      | some (Node.symlink t) => resolveChain fs n (resolveTarget p t)
      | none => none := rfl

theorem FS.lookup_set_self (fs : FS) (p : List String) (n : Node) :
    FS.lookup (FS.set fs p n) p = some n := by
  simp [FS.set, FS.lookup]

theorem FS.lookup_erase_ne (fs : FS) (p q : List String) (h : p ≠ q) :
    FS.lookup (FS.erase fs p) q = FS.lookup fs q := by
  induction fs with
  | nil => rfl
  | cons e rest ih =>
    by_cases he : e.1 = p
    · have hq : e.1 ≠ q := by rw [he]; exact h
      rw [show FS.erase (e :: rest) p = FS.erase rest p from by simp [FS.erase, he]]
      rw [show FS.lookup (e :: rest) q = FS.lookup rest q from by simp [FS.lookup, hq]]
      exact ih
    · rw [show FS.erase (e :: rest) p = e :: FS.erase rest p from by simp [FS.erase, he]]
      by_cases heq : e.1 = q
      · simp [FS.lookup, heq]
      · simp [FS.lookup, heq, ih]

theorem FS.lookup_set_ne (fs : FS) (p q : List String) (n : Node) (h : p ≠ q) :
    FS.lookup (FS.set fs p n) q = FS.lookup fs q := by
  simp [FS.set, FS.lookup, h]
  exact FS.lookup_erase_ne fs p q h

theorem FS.erase_erase (fs : FS) (p : List String) :
    FS.erase (FS.erase fs p) p = FS.erase fs p := by
  induction fs with
  | nil => rfl
  | cons e rest ih =>
    by_cases he : e.1 = p <;> simp [FS.erase, he, ih]

theorem FS.lookup_isSome_of_existsSync (fs : FS) (p : List String)
    (h : existsSync fs p = true) : (FS.lookup fs p).isSome = true := by
  unfold existsSync at h
  cases hl : FS.lookup fs p with
  | none =>
    rw [resolveChain_succ, hl] at h
    simp at h
  | some n => simp

theorem resolveChain_file (fs : FS) :
    ∀ (n : Nat) (p q : List String), resolveChain fs n p = some q →
      ∃ c, FS.lookup fs q = some (Node.file c) := by
  intro n
  induction n with
  | zero => intro p q h; simp [resolveChain] at h
  | succ m ih =>
    intro p q h
    rw [resolveChain_succ] at h
    cases hl : FS.lookup fs p with
    | none => rw [hl] at h; simp at h
    | some node =>
      cases node with
      | file c =>
        rw [hl] at h
        simp at h
        exact ⟨c, h ▸ hl⟩
      | symlink t =>
        rw [hl] at h
        exact ih _ _ h

theorem readFileContent_of_lookup_file (fs : FS) (p : List String) (c : String)
    (h : FS.lookup fs p = some (Node.file c)) : readFileContent fs p = some c := by
  unfold readFileContent
  rw [resolveChain_succ, h]
  simp [h]

theorem readFileContent_isSome_of_existsSync (fs : FS) (p : List String)
    (h : existsSync fs p = true) : ∃ c, readFileContent fs p = some c := by
  unfold existsSync at h
  cases hr : resolveChain fs (fs.length + 1) p with
  | none => rw [hr] at h; simp at h
  | some q =>
    obtain ⟨c, hc⟩ := resolveChain_file fs (fs.length + 1) p q hr
    refine ⟨c, ?_⟩
    unfold readFileContent
    rw [hr]
    simp [hc]

theorem homePath_ne_backupPath (r s : String) : homePath r ≠ backupPath s := by
  intro h
  have := congrArg List.length h
  simp [homePath, backupPath, HOME, BACKUP_DIR] at this

theorem backupPath_ne_repoPath (r s : String) : backupPath r ≠ repoPath s := by
  intro h
  simp [backupPath, repoPath, HOME, BACKUP_DIR, DOTFILES_DIR] at h

theorem homePath_ne_repoPath (r s : String) : homePath r ≠ repoPath s := by
  intro h
  have := congrArg List.length h
  simp [homePath, repoPath, HOME, DOTFILES_DIR] at this

theorem shouldBackup_true_of (fs : FS) (rel : String)
    (hE : existsSync fs (homePath rel) = true)
    (hNs : FS.lookup fs (homePath rel) ≠ some (Node.symlink (PathT.abs (repoPath rel)))) :
    shouldBackup fs rel = true := by
  unfold shouldBackup
  rw [hE]
  have hsome := FS.lookup_isSome_of_existsSync fs (homePath rel) hE
  cases hl : FS.lookup fs (homePath rel) with
  | none => rw [hl] at hsome; simp at hsome
  | some node =>
    cases node with
    | file c => simp
    | symlink t =>
      have ht : t ≠ PathT.abs (repoPath rel) := by
        intro hteq
        exact hNs (by rw [hl, hteq])
      simp [ht]

theorem linkFile_lookup_backup (fs : FS) (rel : String) (c : String)
    (hsb : shouldBackup fs rel = true)
    (hrd : readFileContent fs (homePath rel) = some c) :
    FS.lookup (linkFile fs rel) (backupPath rel) = some (Node.file c) := by
  unfold linkFile
  rw [FS.lookup_set_ne _ _ _ _ (homePath_ne_backupPath rel rel)]
  rw [FS.lookup_erase_ne _ _ _ (homePath_ne_backupPath rel rel)]
  simp [backupStage, hsb, hrd, FS.lookup_set_self]

theorem shouldBackup_linkFile (fs : FS) (rel : String) :
    shouldBackup (linkFile fs rel) rel = false := by
  unfold shouldBackup
  rw [show FS.lookup (linkFile fs rel) (homePath rel) =
        some (Node.symlink (PathT.abs (repoPath rel))) from FS.lookup_set_self _ _ _]
  simp

theorem FS.set_erase_set (fs : FS) (p : List String) (n : Node) :
    FS.set (FS.erase (FS.set fs p n) p) p n = FS.set fs p n := by
  show FS.set (FS.erase ((p, n) :: FS.erase fs p) p) p n = _
  rw [show FS.erase ((p, n) :: FS.erase fs p) p = FS.erase (FS.erase fs p) p from by
    simp [FS.erase]]
  rw [FS.erase_erase]
  unfold FS.set
  rw [FS.erase_erase]

theorem linkFileTrace_foldl (fs : FS) (rel : String) :
    (linkFileTrace fs rel).foldl FS.applyOp fs = linkFile fs rel := by
  cases hsb : shouldBackup fs rel with
  | false => simp [linkFileTrace, linkFile, backupStage, hsb, FS.applyOp]
  | true =>
    cases hrd : readFileContent fs (homePath rel) with
    | none => simp [linkFileTrace, linkFile, backupStage, hsb, hrd, FS.applyOp]
    | some c => simp [linkFileTrace, linkFile, backupStage, hsb, hrd, FS.applyOp]

theorem linkFileTrace_backup_dst (fs : FS) (rel : String) (dst : List String) (c : String)
    (h : FsOp.backupWrite dst c ∈ linkFileTrace fs rel) : dst = backupPath rel := by
  cases hsb : shouldBackup fs rel with
  | false => simp [linkFileTrace, hsb] at h
  | true =>
    cases hrd : readFileContent fs (homePath rel) with
    | none => simp [linkFileTrace, hsb, hrd] at h
    | some c2 =>
      simp [linkFileTrace, hsb, hrd] at h
      exact h.1

theorem linkFile_backs_up_file (fs : FS) (rel c : String)
    (h : FS.lookup fs (homePath rel) = some (Node.file c)) :
    FS.lookup (linkFile fs rel) (backupPath rel) = some (Node.file c) := by
  have hE : existsSync fs (homePath rel) = true := by
    simp [existsSync, resolveChain_succ, h]
  have hsb : shouldBackup fs rel = true := by
    simp [shouldBackup, hE, h]
  exact linkFile_lookup_backup fs rel c hsb (readFileContent_of_lookup_file fs _ c h)

/-- C2: whenever a file exists at the target location and it is not
already the correct symlink, `linkFile` first copies its content to the
backup root (mirroring the relative path), and only afterwards removes
the target entry and creates the symlink: the operation trace is exactly
backup-mkdir, backup-write, home-mkdir, unlink, symlink, and the backup
copy with the old target content is present in the final state.  (The
model covers fault-free executions of the filesystem primitives.) -/
theorem c2_backup_before_unlink : ∀ (fs : FS) (rel : String),
    existsSync fs (homePath rel) = true →
    FS.lookup fs (homePath rel) ≠ some (Node.symlink (PathT.abs (repoPath rel))) →
    ∃ c, readFileContent fs (homePath rel) = some c ∧
      linkFileTrace fs rel =
        [FsOp.mkdirs (parentDir (backupPath rel)),
         FsOp.backupWrite (backupPath rel) c,
         FsOp.mkdirs (parentDir (homePath rel)),
         FsOp.unlink (homePath rel),
         FsOp.symlink (repoPath rel) (homePath rel)] ∧
      FS.lookup (linkFile fs rel) (backupPath rel) = some (Node.file c) := by
  intro fs rel hE hNs
  obtain ⟨c, hc⟩ := readFileContent_isSome_of_existsSync fs (homePath rel) hE
  have hsb := shouldBackup_true_of fs rel hE hNs
  exact ⟨c, hc, by simp [linkFileTrace, hsb, hc], linkFile_lookup_backup fs rel c hsb hc⟩

/-- C2 witness: a concrete divergent regular file at the target. -/
theorem c2_witness :
    ∃ c, readFileContent exC2 (homePath "x") = some c ∧
      linkFileTrace exC2 "x" =
        [FsOp.mkdirs (parentDir (backupPath "x")),
         FsOp.backupWrite (backupPath "x") c,
         FsOp.mkdirs (parentDir (homePath "x")),
         FsOp.unlink (homePath "x"),
         FsOp.symlink (repoPath "x") (homePath "x")] ∧
      FS.lookup (linkFile exC2 "x") (backupPath "x") = some (Node.file c) :=
  c2_backup_before_unlink exC2 "x" (by decide) (by decide)

/-- C6: calling `linkFile` twice in a row produces the same end state as
calling it once, and the second call performs no backup write (after the
first call the target is already the correct symlink). -/
theorem c6_link_idempotent : ∀ (fs : FS) (rel : String),
    linkFile (linkFile fs rel) rel = linkFile fs rel ∧
    ∀ dst c, FsOp.backupWrite dst c ∉ linkFileTrace (linkFile fs rel) rel := by
  intro fs rel
  have hsb := shouldBackup_linkFile fs rel
  constructor
  · have h1 : backupStage (linkFile fs rel) rel = linkFile fs rel := by
      simp [backupStage, hsb]
    show FS.set (FS.erase (backupStage (linkFile fs rel) rel) (homePath rel)) (homePath rel)
        (Node.symlink (PathT.abs (repoPath rel))) = linkFile fs rel
    rw [h1]
    show FS.set (FS.erase (FS.set (FS.erase (backupStage fs rel) (homePath rel)) (homePath rel)
        (Node.symlink (PathT.abs (repoPath rel)))) (homePath rel)) (homePath rel)
        (Node.symlink (PathT.abs (repoPath rel))) = linkFile fs rel
    rw [FS.set_erase_set]
    rfl
  · intro dst c
    simp [linkFileTrace, hsb]

/-- C9: when the target location holds a symbolic link whose referent
does not exist (a broken link), `getFileStatus` returns `unlinked`, the
same status as a completely absent target; in the model the function is
total, so no exception can escape (matching the code's `catch {}`). -/
theorem c9_broken_symlink : ∀ (fs : FS) (rel : String) (t : PathT),
    FS.lookup fs (homePath rel) = some (Node.symlink t) →
    existsSync fs (homePath rel) = false →
    getFileStatus fs rel = FileStatus.unlinked := by
  intro fs rel t hl hE
  simp [getFileStatus, hE]

/-- C9 witness: a symlink to a nonexistent absolute path while the repo
copy exists still resolves to `unlinked`. -/
theorem c9_witness : getFileStatus exC9 "x" = FileStatus.unlinked :=
  c9_broken_symlink exC9 "x" (PathT.abs ["nowhere"]) (by decide) (by decide)

/-- C10: a backup written by `linkFile` always lands at the fixed
location `join(BACKUP_DIR, relativePath)`; linking a path with target
content `c1` stores `c1` there, and linking the same path again after
the target was replaced by different content `c2` overwrites that single
backup entry with `c2`. -/
theorem c10_backup_fixed_location : ∀ (fs : FS) (rel c1 c2 : String),
    FS.lookup fs (homePath rel) = some (Node.file c1) →
    (∀ dst c, FsOp.backupWrite dst c ∈ linkFileTrace fs rel → dst = backupPath rel) ∧
    FS.lookup (linkFile fs rel) (backupPath rel) = some (Node.file c1) ∧
    FS.lookup (linkFile (FS.set (linkFile fs rel) (homePath rel) (Node.file c2)) rel)
      (backupPath rel) = some (Node.file c2) := by
  intro fs rel c1 c2 h
  refine ⟨fun dst c hmem => linkFileTrace_backup_dst fs rel dst c hmem,
          linkFile_backs_up_file fs rel c1 h, ?_⟩
  exact linkFile_backs_up_file _ rel c2 (FS.lookup_set_self _ _ _)

/-- C10 witness: backing up "B1", then relinking with new content "B2"
overwrites the backup entry. -/
theorem c10_witness :
    FS.lookup (linkFile exC10 "x") (backupPath "x") = some (Node.file "B1") ∧
    FS.lookup (linkFile (FS.set (linkFile exC10 "x") (homePath "x") (Node.file "B2")) "x")
      (backupPath "x") = some (Node.file "B2") :=
  ⟨(c10_backup_fixed_location exC10 "x" "B1" "B2" (by decide)).2.1,
   (c10_backup_fixed_location exC10 "x" "B1" "B2" (by decide)).2.2⟩

/-- C3 counterexample: target exists as a regular file whose content is
identical to the repo copy (`filesMatch` is true), yet `getFileStatus`
returns `diverged`, not `synced`: the claim that identical content
resolves to `Synced` fails on this code. -/
theorem c3_counterexample :
    FS.lookup exC3 (homePath "x") = some (Node.file "A") ∧
    filesMatch exC3 "x" = true ∧
    getFileStatus exC3 "x" = FileStatus.diverged := by decide

/-- C3 amended: in link-mode status resolution, every path whose target
exists and is not the correct symlink to the repo copy resolves to
`Diverged`, even when its content is identical to the repo copy:
`getFileStatus` performs no content comparison (content equality is
checked separately by `filesMatch` when the caller handles a diverged
file). -/
theorem c3_amended : ∀ (fs : FS) (rel : String),
    existsSync fs (homePath rel) = true →
    FS.lookup fs (homePath rel) ≠ some (Node.symlink (PathT.abs (repoPath rel))) →
    getFileStatus fs rel = FileStatus.diverged := by
  intro fs rel hE hNs
  have hsome := FS.lookup_isSome_of_existsSync fs (homePath rel) hE
  cases hl : FS.lookup fs (homePath rel) with
  | none => rw [hl] at hsome; simp at hsome
  | some node =>
    cases node with
    | file c => simp [getFileStatus, hE, hl]
    | symlink t =>
      have ht : t ≠ PathT.abs (repoPath rel) := by
        intro hteq
        exact hNs (by rw [hl, hteq])
      simp [getFileStatus, hE, hl, ht]

/-- C3 amended witness: the identical-content store resolves to diverged. -/
theorem c3_amended_witness : getFileStatus exC3 "x" = FileStatus.diverged :=
  c3_amended exC3 "x" (by decide) (by decide)

/-- C4 counterexample: the repository copy is absent yet a regular file
sits at the target location; `getFileStatus` returns `diverged`, not the
claimed `unlinked` (the function never inspects the repo copy). -/
theorem c4_counterexample :
    FS.lookup exC4 (repoPath "x") = none ∧
    getFileStatus exC4 "x" = FileStatus.diverged ∧
    FileStatus.diverged ≠ FileStatus.unlinked := by decide

/-- C4 amended: for a path whose repository copy is absent, status
resolution never returns `synced`, and it returns `unlinked` exactly when
nothing exists at the target after following symlinks (in particular when
the target is absent, or is a symlink pointing at the absent repo copy);
an existing regular file or a foreign symlink to an existing file at the
target yields `diverged` instead of `unlinked`. -/
theorem c4_amended : ∀ (fs : FS) (rel : String),
    FS.lookup fs (repoPath rel) = none →
    (getFileStatus fs rel = FileStatus.unlinked ↔
      existsSync fs (homePath rel) = false) ∧
    getFileStatus fs rel ≠ FileStatus.synced := by
  intro fs rel hrepo
  cases hE : existsSync fs (homePath rel) with
  | false => simp [getFileStatus, hE]
  | true =>
    have hsome := FS.lookup_isSome_of_existsSync fs (homePath rel) hE
    cases hl : FS.lookup fs (homePath rel) with
    | none => rw [hl] at hsome; simp at hsome
    | some node =>
      cases node with
      | file c => simp [getFileStatus, hE, hl]
      | symlink t =>
        by_cases ht : t = PathT.abs (repoPath rel)
        · exfalso
          have hnone : resolveChain fs (fs.length + 1) (homePath rel) = none := by
            rw [resolveChain_succ, hl, ht]
            show resolveChain fs fs.length
              (resolveTarget (homePath rel) (PathT.abs (repoPath rel))) = none
            rw [show resolveTarget (homePath rel) (PathT.abs (repoPath rel)) = repoPath rel
              from rfl]
            cases hlen : fs.length with
            | zero => simp [resolveChain]
            | succ m => rw [resolveChain_succ, hrepo]
          unfold existsSync at hE
          rw [hnone] at hE
          simp at hE
        · simp [getFileStatus, hE, hl, ht]

/-- C4 amended witness: repo copy absent, regular file at the target. -/
theorem c4_amended_witness :
    (getFileStatus exC4 "x" = FileStatus.unlinked ↔
      existsSync exC4 (homePath "x") = false) ∧
    getFileStatus exC4 "x" ≠ FileStatus.synced :=
  c4_amended exC4 "x" (by decide)

/-- C5 counterexample: the target is a symbolic link whose relative link
target resolves (against the link's directory) exactly to the repo copy,
the chain exists, yet `getFileStatus` returns `diverged`: the raw
readlink text is compared to the absolute repo path, so a relative link
target never counts as a correct symlink. -/
theorem c5_counterexample :
    FS.lookup exC5 (homePath "x") = some (Node.symlink (PathT.rel [".dotfiles", "x"])) ∧
    resolveTarget (homePath "x") (PathT.rel [".dotfiles", "x"]) = repoPath "x" ∧
    existsSync exC5 (homePath "x") = true ∧
    getFileStatus exC5 "x" = FileStatus.diverged := by decide

/-- C5 amended: when the target exists and is a symbolic link, the
resolved status is `synced` exactly when the raw link target equals the
absolute repo path; any other link target — including a relative one
that resolves to the repo copy — yields `diverged`. -/
theorem c5_amended : ∀ (fs : FS) (rel : String) (t : PathT),
    existsSync fs (homePath rel) = true →
    FS.lookup fs (homePath rel) = some (Node.symlink t) →
    getFileStatus fs rel =
      (if t = PathT.abs (repoPath rel) then FileStatus.synced else FileStatus.diverged) := by
  intro fs rel t hE hl
  simp [getFileStatus, hE, hl]

/-- C5 amended witness: a literal absolute symlink to the repo copy is
synced. -/
theorem c5_amended_witness :
    getFileStatus exC5W "x" =
      (if PathT.abs (repoPath "x") = PathT.abs (repoPath "x") then FileStatus.synced
       else FileStatus.diverged) :=
  c5_amended exC5W "x" (PathT.abs (repoPath "x")) (by decide) (by decide)

theorem applyVcsSignals_path (r l : List String) (f : GFileInfo) :
    (applyVcsSignals r l f).path = f.path := by
  unfold applyVcsSignals
  split_ifs <;> rfl

/-- C1: in the status-update loop of both orchestrator modes, every
tracked path present in both the remote-changed and local-uncommitted
sets ends up with status `conflict`, whatever filesystem-only status was
computed for it beforehand. -/
theorem c1_conflict_precedence : ∀ (remoteChanges localChanges : List String)
    (files : List GFileInfo) (g : GFileInfo),
    g ∈ reconcileStatuses remoteChanges localChanges files →
    g.path ∈ remoteChanges → g.path ∈ localChanges →
    g.status = GFileStatus.conflict := by
  intro r l files g hg hr hl
  obtain ⟨f, hf, rfl⟩ := List.mem_map.mp hg
  rw [applyVcsSignals_path] at hr hl
  unfold applyVcsSignals
  rw [if_pos ⟨hr, hl⟩]

/-- C1 witness: a synced file listed in both change sets is reported as
conflict. -/
theorem c1_witness :
    (⟨"a", "Shell", GFileStatus.conflict⟩ : GFileInfo).status = GFileStatus.conflict :=
  c1_conflict_precedence ["a"] ["a"] exC1files ⟨"a", "Shell", GFileStatus.conflict⟩
    (by decide) (by decide) (by decide)

theorem idx_lt_of_pred_true_in_front (f : SyncOp → Bool) :
    ∀ (X Y : List SyncOp) (i : Nat) (a : SyncOp),
      (X ++ Y)[i]? = some a → (∀ b ∈ Y, f b = false) → f a = true → i < X.length := by
  intro X
  induction X with
  | nil =>
    intro Y i a h hY hf
    exfalso
    have ha : a ∈ Y := List.getElem?_mem (by simpa using h)
    rw [hY a ha] at hf
    simp at hf
  | cons x X ih =>
    intro Y i a h hY hf
    cases i with
    | zero => simp
    | succ k =>
      have h2 : (X ++ Y)[k]? = some a := by simpa using h
      have := ih Y k a h2 hY hf
      simpa using Nat.succ_lt_succ this

theorem len_le_of_pred_true_in_back (g : SyncOp → Bool) :
    ∀ (X Y : List SyncOp) (j : Nat) (a : SyncOp),
      (X ++ Y)[j]? = some a → (∀ b ∈ X, g b = false) → g a = true → X.length ≤ j := by
  intro X
  induction X with
  | nil => intro Y j a h hX hg; simp
  | cons x X ih =>
    intro Y j a h hX hg
    cases j with
    | zero =>
      exfalso
      have hax : a = x := by
        have := h
        simp at this
        exact this.symm
      rw [hax, hX x (by simp)] at hg
      simp at hg
    | succ k =>
      have h2 : (X ++ Y)[k]? = some a := by simpa using h
      have := ih Y k a h2 (fun b hb => hX b (by simp [hb])) hg
      simpa using Nat.succ_le_succ this

theorem isLaterBucketOp_false_on_pullSeg (toPull toPush toLink : List String) (b : SyncOp)
    (hb : b ∈ (if toPull.isEmpty then ([] : List SyncOp)
               else SyncOp.gitPull :: toPull.map SyncOp.link)) :
    isLaterBucketOp toPush toLink toPull b = false := by
  split at hb
  · simp at hb
  · rcases List.mem_cons.mp hb with hb1 | hb2
    · rw [hb1]; rfl
    · obtain ⟨p, hp, rfl⟩ := List.mem_map.mp hb2
      simp [isLaterBucketOp, hp]

theorem isPullBucketOp_false_on_laterSeg (toPull toPush toLink : List String)
    (hdisj : ∀ p ∈ toPull, p ∉ toLink) (b : SyncOp)
    (hb : b ∈ ((if toPush.isEmpty then ([] : List SyncOp)
                else toPush.map SyncOp.copyToRepo ++
                  [SyncOp.gitPush (pushMessage toPush.length)]) ++
               (if toLink.isEmpty then ([] : List SyncOp)
                else toLink.map SyncOp.link))) :
    isPullBucketOp toPull b = false := by
  rcases List.mem_append.mp hb with hb1 | hb2
  · split at hb1
    · simp at hb1
    · rcases List.mem_append.mp hb1 with hb3 | hb4
      · obtain ⟨p, hp, rfl⟩ := List.mem_map.mp hb3
        rfl
      · have hbp : b = SyncOp.gitPush (pushMessage toPush.length) := by simpa using hb4
        rw [hbp]; rfl
  · split at hb2
    · simp at hb2
    · obtain ⟨p, hp, rfl⟩ := List.mem_map.mp hb2
      have hnp : p ∉ toPull := fun hc => hdisj p hc hp
      simp [isPullBucketOp, hnp]

theorem isPushBucketOp_false_on_linkSeg (toPush toLink : List String) (b : SyncOp)
    (hb : b ∈ (if toLink.isEmpty then ([] : List SyncOp) else toLink.map SyncOp.link)) :
    isPushBucketOp toPush b = false := by
  split at hb
  · simp at hb
  · obtain ⟨p, hp, rfl⟩ := List.mem_map.mp hb
    rfl

theorem isLinkBucketOp_false_on_pullPushSeg (toPull toPush toLink : List String) (b : SyncOp)
    (hb : b ∈ ((if toPull.isEmpty then ([] : List SyncOp)
                else SyncOp.gitPull :: toPull.map SyncOp.link) ++
               (if toPush.isEmpty then ([] : List SyncOp)
                else toPush.map SyncOp.copyToRepo ++
                  [SyncOp.gitPush (pushMessage toPush.length)]))) :
    isLinkBucketOp toLink toPull b = false := by
  rcases List.mem_append.mp hb with h1 | h2
  · split at h1
    · simp at h1
    · rcases List.mem_cons.mp h1 with h | h
      · rw [h]; rfl
      · obtain ⟨p, hp, rfl⟩ := List.mem_map.mp h
        simp [isLinkBucketOp, hp]
  · split at h2
    · simp at h2
    · rcases List.mem_append.mp h2 with h3 | h4
      · obtain ⟨p, hp, rfl⟩ := List.mem_map.mp h3
        rfl
      · have hbp : b = SyncOp.gitPush (pushMessage toPush.length) := by simpa using h4
        rw [hbp]; rfl

/-- C7: the execute phase of `runGlobalMode` runs the buckets in the
fixed order pull, then push, then link: every pull-bucket operation (the
`git pull` and the relinking of pulled paths) occurs strictly before
every push-bucket and every link-bucket operation, and every push-bucket
operation (copy-to-repo, batched commit+push) occurs strictly before
every link-bucket operation — given that the pull and link buckets are
disjoint (which the partition by status guarantees: each selected path
is routed by its single status). -/
theorem c7_execution_order : ∀ (toPull toPush toLink : List String) (i j : Nat)
    (a b : SyncOp),
    (∀ p ∈ toPull, p ∉ toLink) →
    (executeGlobal toPull toPush toLink)[i]? = some a →
    (executeGlobal toPull toPush toLink)[j]? = some b →
    ((isPullBucketOp toPull a = true ∧ isLaterBucketOp toPush toLink toPull b = true) ∨
     (isPushBucketOp toPush a = true ∧ isLinkBucketOp toLink toPull b = true)) →
    i < j := by
  intro pl ps lk i j a b hdisj ha hb hcase
  unfold executeGlobal at ha hb
  rcases hcase with ⟨hpa, hlb⟩ | ⟨hpa, hlb⟩
  · have hi := idx_lt_of_pred_true_in_front (isPullBucketOp pl) _ _ i a ha
      (fun c hc => isPullBucketOp_false_on_laterSeg pl ps lk hdisj c hc) hpa
    have hj := len_le_of_pred_true_in_back (isLaterBucketOp ps lk pl) _ _ j b hb
      (fun c hc => isLaterBucketOp_false_on_pullSeg pl ps lk c hc) hlb
    exact lt_of_lt_of_le hi hj
  · rw [← List.append_assoc] at ha hb
    have hi := idx_lt_of_pred_true_in_front (isPushBucketOp ps) _ _ i a ha
      (fun c hc => isPushBucketOp_false_on_linkSeg ps lk c hc) hpa
    have hj := len_le_of_pred_true_in_back (isLinkBucketOp lk pl) _ _ j b hb
      (fun c hc => isLinkBucketOp_false_on_pullPushSeg pl ps lk c hc) hlb
    exact lt_of_lt_of_le hi hj

/-- C7 witness: with one path per bucket, the push-bucket copy-to-repo at
index 2 precedes the link-bucket link at index 4. -/
theorem c7_witness :
    (executeGlobal ["a"] ["b"] ["c"])[2]? = some (SyncOp.copyToRepo "b") ∧
    (executeGlobal ["a"] ["b"] ["c"])[4]? = some (SyncOp.link "c") ∧ 2 < 4 :=
  ⟨by decide, by decide,
   c7_execution_order ["a"] ["b"] ["c"] 2 4 (SyncOp.copyToRepo "b") (SyncOp.link "c")
     (by decide) (by decide) (by decide) (Or.inr ⟨by decide, by decide⟩)⟩

/-- C8: a push batch that changes nothing creates no empty commit: when
zero paths are in the push bucket the execute phase issues no
copy-to-repo and no commit+push at all, and when the commit step reports
"nothing to commit", `pushRepo` returns success without running
`git push`. -/
theorem c8_no_empty_commit :
    (∀ (toPull toLink : List String) (op : SyncOp), op ∈ executeGlobal toPull [] toLink →
      (∀ m, op ≠ SyncOp.gitPush m) ∧ (∀ q, op ≠ SyncOp.copyToRepo q)) ∧
    (∀ (msg : String) (addRes commitRes pushRes : GitResult),
      addRes.ok = true → commitRes.ok = false →
      errorIncludes commitRes "nothing to commit" = true →
      (pushRepo msg addRes commitRes pushRes).1 = ⟨true, none⟩ ∧
      GitCmd.push ∉ (pushRepo msg addRes commitRes pushRes).2) := by
  constructor
  · intro pl lk op hop
    have hshape : op = SyncOp.gitPull ∨ ∃ p, op = SyncOp.link p := by
      unfold executeGlobal at hop
      rcases List.mem_append.mp hop with h1 | h2
      · split at h1
        · simp at h1
        · rcases List.mem_cons.mp h1 with h | h
          · exact Or.inl h
          · obtain ⟨p, _, rfl⟩ := List.mem_map.mp h
            exact Or.inr ⟨p, rfl⟩
      · rcases List.mem_append.mp h2 with h3 | h4
        · simp at h3
        · split at h4
          · simp at h4
          · obtain ⟨p, _, rfl⟩ := List.mem_map.mp h4
            exact Or.inr ⟨p, rfl⟩
    rcases hshape with rfl | ⟨p, rfl⟩ <;>
      exact ⟨fun m => by simp, fun q => by simp⟩
  · intro msg addRes commitRes pushRes hadd hcommit hinc
    refine ⟨?_, ?_⟩ <;> simp [pushRepo, hadd, hcommit, hinc]

/-- C8 witness: a concrete "nothing to commit" outcome yields success,
and a pull-only execute phase contains no push command. -/
theorem c8_witness :
    SyncOp.gitPull ≠ SyncOp.gitPush "update 0 files" ∧
    (pushRepo "update 2 files" ⟨true, none⟩
      ⟨false, some "nothing to commit, working tree clean"⟩ ⟨true, none⟩).1 =
      ⟨true, none⟩ :=
  ⟨(c8_no_empty_commit.1 ["a"] ["c"] SyncOp.gitPull (by decide)).1 "update 0 files",
   (c8_no_empty_commit.2 "update 2 files" ⟨true, none⟩
     ⟨false, some "nothing to commit, working tree clean"⟩ ⟨true, none⟩ rfl rfl
     (by decide)).1⟩
